import Mathlib

/-!
Shallow embedding of the two extraction tools of this repository
(src/depth.cpp and src/nobjnm.cpp).

Both programs scan a directory tree for cell files with suffix ".000",
open each file, build one SQL query string per file from the layers
found present, and export the query result to a cumulative CSV
destination, switching to append mode after the first successful write.

The external GDAL engines (vector source, query execution, tabular
export) are collaborators outside the repository; where a claim needs
their behaviour, the corresponding definition is modelled from the
spec and carries a doc comment saying so.  Everything else is
translated directly from the C++ sources.
-/

namespace GdalExport

set_option maxRecDepth 100000

/-! ## Data model of an opened cell file (the Vector Source Engine view) -/

/-- A field value of a feature: `none` is SQL NULL. -/
abbrev FieldValue := Option String

/-- One feature of a layer: its attribute fields (name, value). -/
structure Feature where
  fields : List (String × FieldValue)
deriving DecidableEq

/-- Field access: a field that is absent behaves as NULL. -/
def Feature.get (f : Feature) (name : String) : FieldValue :=
  match f.fields.lookup name with
  | some v => v
  | none => none

/-- A layer of a cell file: its name, its schema (field names, as
reported by GetLayerDefn/GetFieldIndex) and its features. -/
structure Layer where
  name : String
  fieldNames : List String
  features : List Feature
deriving DecidableEq

/-- An opened cell file: its layers. -/
structure CellFile where
  layers : List Layer
deriving DecidableEq

/-- GDALDataset::GetLayerByName: first layer with the given name. -/
def CellFile.getLayerByName (ds : CellFile) (n : String) : Option Layer :=
  ds.layers.find? (fun l => l.name == n)

/-! ## depth.cpp: the layer registry

depth.cpp stores the layer-to-field mapping in a std::map, which keeps
its entries sorted by key; iteration is in ascending lexicographic key
order.  We model the container by sorted insertion of the entries in
their source order. -/

/-- Lexicographic order on character lists, by code point; on the
ASCII layer names this is exactly the byte-wise std::string order
used by std::map. -/
def charListLt : List Char → List Char → Bool
  | [], [] => false
  | [], _ :: _ => true
  | _ :: _, [] => false
  | a :: as, b :: bs =>
    if Nat.blt a.toNat b.toNat then true
    else if Nat.blt b.toNat a.toNat then false
    else charListLt as bs

/-- The std::string comparison of the std::map key order. -/
def strLt (s t : String) : Bool := charListLt s.data t.data

/-- Ordered insertion into a key-sorted association list, mirroring
std::map insertion (an existing key is kept unchanged). -/
def mapInsert (k v : String) : List (String × String) → List (String × String)
  | [] => [(k, v)]
  | (k0, v0) :: rest =>
    if strLt k k0 then (k, v) :: (k0, v0) :: rest
    else if k == k0 then (k0, v0) :: rest
    else (k0, v0) :: mapInsert k v rest

/-- The entries of the depth_map initializer list of depth.cpp, in
source order. -/
def depth_map_entries : List (String × String) :=
  [("SOUNDG", "DEPTH"),
   ("DEPARE", "DRVAL1"),
   ("DRGARE", "DRVAL1"),
   ("DEPCNT", "VALDCO"),
   ("WRECKS", "VALSOU"),
   ("OBSTRN", "VALSOU"),
   ("UWTROC", "VALSOU")]

/-- The std::map depth_map of depth.cpp: the entries inserted into the
key-ordered container. -/
def depth_map : List (String × String) :=
  depth_map_entries.foldl (fun m kv => mapInsert kv.1 kv.2 m) []

/-- all_target_layers of depth.cpp: LNDARE first, then the keys of
depth_map in iteration (ascending key) order. -/
def all_target_layers : List String :=
  "LNDARE" :: depth_map.map Prod.fst

/-! ## The SQL fragment strings

The strings below are the exact query fragments the two programs
build (apostrophes written with the \x27 escape). -/

/-- The common head of every fragment: the repaired and simplified
geometry expression aliased WKT. -/
def geomSelect : String :=
  "SELECT ST_MakeValid(ST_SimplifyPreserveTopology(geometry, 0.00025)) AS WKT, "

/-- The row filter appended for field-based rules: the field must be
non-NULL and not the empty string. -/
def whereNonEmpty (f : String) : String :=
  "WHERE \"" ++ f ++ "\" IS NOT NULL AND \"" ++ f ++ "\" != \x27\x27"

/-- depth.cpp, LNDARE branch: constant depth -1, no row filter. -/
def lndareSql (layerName : String) : String :=
  geomSelect ++ "\x27" ++ layerName ++ "\x27 AS LAYERS, CAST(-1 AS REAL) AS DEPTH FROM \"" ++
    layerName ++ "\""

/-- depth.cpp, depth-field branch: the field cast to REAL, with the
non-null and non-empty row filter. -/
def depthFieldSql (layerName depthField : String) : String :=
  geomSelect ++ "\x27" ++ layerName ++ "\x27 AS LAYERS, CAST(\"" ++ depthField ++
    "\" AS REAL) AS DEPTH FROM \"" ++ layerName ++ "\" " ++ whereNonEmpty depthField

/-- nobjnm.cpp fragment: level tag, layer tag and the raw filter
field, with the non-null and non-empty row filter. -/
def nobjnmFieldSql (level : Char) (layerName filterField : String) : String :=
  geomSelect ++ "\x27" ++ String.singleton level ++ "\x27 AS LEVEL, \x27" ++ layerName ++
    "\x27 AS LAYERS, \"" ++ filterField ++ "\" FROM \"" ++ layerName ++ "\" " ++
    whereNonEmpty filterField

/-! ## Per-file fragment list building (the loops of the two mains) -/

/-- The body of the depth.cpp layer loop for one candidate layer name:
if the layer exists, the LNDARE constant fragment or the depth-field
fragment (no check that the depth field exists in the layer schema). -/
def depthSqlOf (ds : CellFile) (layerName : String) : Option String :=
  match ds.getLayerByName layerName with
  | none => none
  | some _ =>
    if layerName == "LNDARE" then
      some (lndareSql layerName)
    else
      match depth_map.lookup layerName with
      | some depthField => some (depthFieldSql layerName depthField)
      | none => none

/-- sql_parts of depth.cpp: the fragments for the target layers found
present, in all_target_layers order. -/
def depth_sql_parts (ds : CellFile) : List String :=
  all_target_layers.filterMap (depthSqlOf ds)

/-- The body of the nobjnm.cpp layer loop for one candidate layer
name: the layer must exist and its schema must contain the filter
field (GetFieldIndex different from -1); otherwise the layer is
skipped. -/
def nobjnmSqlOf (ds : CellFile) (filterField : String) (level : Char) (layerName : String) :
    Option String :=
  match ds.getLayerByName layerName with
  | none => none
  | some poLayer =>
    if poLayer.fieldNames.contains filterField then
      some (nobjnmFieldSql level layerName filterField)
    else
      none

/-- sql_parts of nobjnm.cpp: the fragments for the target layers found
present with the filter field, in targetLayers order. -/
def nobjnm_sql_parts (ds : CellFile) (targetLayers : List String) (filterField : String)
    (level : Char) : List String :=
  targetLayers.filterMap (nobjnmSqlOf ds filterField level)

/-- nobjnm.cpp level extraction: the third character of the filename
when it has at least three characters, otherwise the character 0. -/
def levelOfFilename (filename : String) : Char :=
  if 3 ≤ filename.length then filename.data.getD 2 '0' else '0'

/-! ## Structured view of the fragments

Each SQL fragment built above is described by a record carrying the
layer it selects from, the attached level tag (nobjnm only), the
attribute projection and the optional row-filter field; a render
function recovers the exact string, and the fragment lists are proved
to agree with the string lists built by the loops. -/

/-- The attribute projection of a fragment. -/
inductive Proj where
  | constNeg1
  | castField (f : String)
  | rawField (f : String)
deriving DecidableEq

/-- Structured description of one query fragment. -/
structure Fragment where
  layer : String
  level : Option Char
  proj : Proj
  whereField : Option String
deriving DecidableEq

/-- The exact SQL text of a fragment. -/
def Fragment.render (fr : Fragment) : String :=
  match fr.level with
  | some lvl =>
    match fr.proj with
    | .rawField f => nobjnmFieldSql lvl fr.layer f
    | .constNeg1 => lndareSql fr.layer
    | .castField f => depthFieldSql fr.layer f
  | none =>
    match fr.proj with
    | .constNeg1 => lndareSql fr.layer
    | .castField f => depthFieldSql fr.layer f
    | .rawField f => depthFieldSql fr.layer f

/-- Structured counterpart of the depth.cpp loop body. -/
def depthFragOf (ds : CellFile) (layerName : String) : Option Fragment :=
  match ds.getLayerByName layerName with
  | none => none
  | some _ =>
    if layerName == "LNDARE" then
      some ⟨layerName, none, .constNeg1, none⟩
    else
      match depth_map.lookup layerName with
      | some depthField => some ⟨layerName, none, .castField depthField, some depthField⟩
      | none => none

/-- The structured fragments of one depth.cpp file. -/
def depth_fragments (ds : CellFile) : List Fragment :=
  all_target_layers.filterMap (depthFragOf ds)

/-- Structured counterpart of the nobjnm.cpp loop body. -/
def nobjnmFragOf (ds : CellFile) (filterField : String) (level : Char) (layerName : String) :
    Option Fragment :=
  match ds.getLayerByName layerName with
  | none => none
  | some poLayer =>
    if poLayer.fieldNames.contains filterField then
      some ⟨layerName, some level, .rawField filterField, some filterField⟩
    else
      none

/-- The structured fragments of one nobjnm.cpp file. -/
def nobjnm_fragments (ds : CellFile) (targetLayers : List String) (filterField : String)
    (level : Char) : List Fragment :=
  targetLayers.filterMap (nobjnmFragOf ds filterField level)

/-! ## Row semantics of a fragment

Modelled from the spec: query execution is performed by the external
Query Execution Engine (section 4.4 of the spec): every feature of
the named layer that passes the non-null and non-empty filter (when
the fragment has one) yields one row carrying the level tag, the
layer tag and the projected attribute; a field absent from a feature
behaves as NULL.  Fragments are combined with UNION ALL, preserving
every row of every fragment. -/

/-- The projected attribute value of one output row: the fixed
constant, the field cast to REAL, or the raw text field. -/
inductive AttrVal where
  | intConst (n : Int)
  | castReal (raw : FieldValue)
  | textVal (raw : FieldValue)
deriving DecidableEq

/-- One output row: level tag (nobjnm only), layer tag, projected
attribute, and the source feature it came from. -/
structure Row where
  level : Option Char
  layerTag : String
  attr : AttrVal
  src : Feature
deriving DecidableEq

/-- Modelled from the spec: evaluation of the row filter of a
fragment on one feature. -/
def passesFilter (f : Feature) : Option String → Bool
  | none => true
  | some fld =>
    match f.get fld with
    | none => false
    | some v => v != ""

/-- Modelled from the spec: the attribute projection applied to one
feature. -/
def projAttr (f : Feature) : Proj → AttrVal
  | .constNeg1 => .intConst (-1)
  | .castField fld => .castReal (f.get fld)
  | .rawField fld => .textVal (f.get fld)

/-- Modelled from the spec: the rows one fragment contributes. -/
def evalFragment (ds : CellFile) (fr : Fragment) : List Row :=
  match ds.getLayerByName fr.layer with
  | none => []
  | some l =>
    (l.features.filter (fun f => passesFilter f fr.whereField)).map
      (fun f => ⟨fr.level, fr.layer, projAttr f fr.proj, f⟩)

/-- Modelled from the spec: UNION ALL of the rows of all fragments,
in fragment order. -/
def evalQuery (ds : CellFile) (frs : List Fragment) : List Row :=
  (frs.map (evalFragment ds)).flatten

/-! ## The per-run export loop

One scanned directory entry, with the responses of the external
collaborators for it: its extension and filename, the result of
opening it (none when GDALOpenEx fails), and whether option creation
and the export call succeed. -/

/-- One directory entry together with the responses of the external
engines for it. -/
structure Entry where
  path : String
  filename : String
  ext : String
  file : Option CellFile
  optionsOk : Bool
  exportOk : Bool
deriving DecidableEq

/-- One GDALVectorTranslate invocation: destination, logical output
name, whether the call was made in append mode, the query text, the
full option list handed to the engine, and whether the call
succeeded. -/
structure ExportCall where
  dest : String
  name : String
  append : Bool
  sql : String
  opts : List String
  ok : Bool
deriving DecidableEq

/-- The option list depth.cpp pushes for one export: format, SQLite
dialect, append when not the first write, the query, the output name,
the WKT layer-creation option, and the forced 2D dimensionality. -/
def depthOpts (isFirstWrite : Bool) (sqlQuery outputName : String) : List String :=
  ["-f", "CSV", "-dialect", "SQLite"] ++
    (if isFirstWrite then [] else ["-append"]) ++
    ["-sql", sqlQuery, "-nln", outputName, "-lco", "GEOMETRY=AS_WKT", "-dim", "2"]

/-- The option list nobjnm.cpp pushes for one export: as the depth
variant but with no dimensionality request. -/
def nobjnmOpts (isFirstWrite : Bool) (sqlQuery outputName : String) : List String :=
  ["-f", "CSV", "-dialect", "SQLite"] ++
    (if isFirstWrite then [] else ["-append"]) ++
    ["-sql", sqlQuery, "-nln", outputName, "-lco", "GEOMETRY=AS_WKT"]

/-- The per-entry body of the depth.cpp main loop, producing the
export call the entry leads to, if any: the entry must have the .000
suffix, open successfully, yield a non-empty fragment list, and the
option construction must succeed. -/
def mkDepth (outputDir outputName : String) (st : Bool) (e : Entry) : Option ExportCall :=
  if e.ext == ".000" then
    match e.file with
    | none => none
    | some ds =>
      let sql_parts := depth_sql_parts ds
      if sql_parts.isEmpty then none
      else
        let sqlQuery := String.intercalate " UNION ALL " sql_parts
        if e.optionsOk then
          some ⟨outputDir, outputName, !st, sqlQuery, depthOpts st sqlQuery outputName,
                e.exportOk⟩
        else none
  else none

/-- The per-entry body of the nobjnm.cpp main loop; the level code is
derived from the entry filename. -/
def mkNobjnm (outputDir outputName : String) (targetLayers : List String)
    (filterField : String) (st : Bool) (e : Entry) : Option ExportCall :=
  if e.ext == ".000" then
    let level := levelOfFilename e.filename
    match e.file with
    | none => none
    | some ds =>
      let sql_parts := nobjnm_sql_parts ds targetLayers filterField level
      if sql_parts.isEmpty then none
      else
        let sqlQuery := String.intercalate " UNION ALL " sql_parts
        if e.optionsOk then
          some ⟨outputDir, outputName, !st, sqlQuery, nobjnmOpts st sqlQuery outputName,
                e.exportOk⟩
        else none
  else none

/-- The shared shape of both main loops: thread the isFirstWrite flag
through the entries, collecting the export calls; the flag flips to
false on a successful export and is otherwise unchanged. -/
def runLoop (mk : Bool → Entry → Option ExportCall) :
    List Entry → Bool → Bool × List ExportCall
  | [], st => (st, [])
  | e :: es, st =>
    match mk st e with
    | none => runLoop mk es st
    | some c =>
      let r := runLoop mk es (if c.ok then false else st)
      (r.1, c :: r.2)

/-- Modelled from the spec: the Tabular Export Engine creates the
destination on the first successful write and accumulates every later
successful write into it; a failed call leaves it unchanged.  The
destination content is abstracted to the list of query texts
successfully exported into it. -/
def applyExport (dest : Option (List String)) (c : ExportCall) : Option (List String) :=
  if c.ok then some (dest.getD [] ++ [c.sql]) else dest

/-- What one run observably produces: the process exit code, the
final isFirstWrite flag (the only cross-file run state of the
programs), the export calls issued, and the final destination
content. -/
structure RunOut where
  exit : Nat
  firstWriteFinal : Bool
  calls : List ExportCall
  dest : Option (List String)
deriving DecidableEq

/-- One invocation of the depth.cpp pipeline: the pre-existing
destination is removed in its entirety, the entries are processed
with the flag starting true, and the exit code is 1 exactly when the
directory traversal failed. -/
def runDepth (outputDir outputName : String) (dest0 : Option (List String))
    (entries : List Entry) (scanFail : Bool) : RunOut :=
  let destReset : Option (List String) := if dest0.isSome then none else dest0
  let r := runLoop (mkDepth outputDir outputName) entries true
  ⟨if scanFail then 1 else 0, r.1, r.2, r.2.foldl applyExport destReset⟩

/-- One invocation of the nobjnm.cpp pipeline. -/
def runNobjnm (outputDir outputName : String) (targetLayers : List String)
    (filterField : String) (dest0 : Option (List String)) (entries : List Entry)
    (scanFail : Bool) : RunOut :=
  let destReset : Option (List String) := if dest0.isSome then none else dest0
  let r := runLoop (mkNobjnm outputDir outputName targetLayers filterField) entries true
  ⟨if scanFail then 1 else 0, r.1, r.2, r.2.foldl applyExport destReset⟩

/-! ## The command-line boundary -/

/-- The outcome of boost program_options parsing: help requested,
a parse or validation error, or the parsed arguments. -/
inductive CliOutcome (α : Type) where
  | helpShown
  | parseError
  | parsed (args : α)

/-- The parsed arguments of depth.cpp. -/
structure DepthArgs where
  inputDir : String
  outputDir : String
  outputName : String

/-- The parsed arguments of nobjnm.cpp, with the defaulted layer list
and filter field. -/
structure NobjnmArgs where
  inputDir : String
  outputDir : String
  targetLayers : List String
  filterField : String
  outputName : String

/-- The default layer list of nobjnm.cpp. -/
def defaultLayers : List String := ["LNDARE", "DEPARE", "SEAARE", "HRBFAC", "BRIDGE"]

/-- The default filter field of nobjnm.cpp. -/
def defaultFilterField : String := "NOBJNM"

/-- The exit behaviour of the depth.cpp main function: help prints
usage and returns 0, an argument error returns 1, otherwise the run
is performed and its exit code returned. -/
def mainDepth (cli : CliOutcome DepthArgs) (dest0 : Option (List String))
    (entries : List Entry) (scanFail : Bool) : Nat :=
  match cli with
  | .helpShown => 0
  | .parseError => 1
  | .parsed a => (runDepth a.outputDir a.outputName dest0 entries scanFail).exit

/-- The exit behaviour of the nobjnm.cpp main function. -/
def mainNobjnm (cli : CliOutcome NobjnmArgs) (dest0 : Option (List String))
    (entries : List Entry) (scanFail : Bool) : Nat :=
  match cli with
  | .helpShown => 0
  | .parseError => 1
  | .parsed a =>
    (runNobjnm a.outputDir a.outputName a.targetLayers a.filterField dest0 entries
      scanFail).exit

/-! ## Per-file terminal-state classification

Modelled from the spec (section 4.5): each candidate file reaches one
terminal state, counted as processed, skipped or failed. -/

/-- Modelled from the spec: the terminal state class of one entry
under the depth variant (none when the entry is not a candidate cell
file). -/
def depthFileClass (e : Entry) : Option (Fin 3) :=
  if e.ext == ".000" then
    some (match e.file with
      | none => 1
      | some ds =>
        if (depth_sql_parts ds).isEmpty then 1
        else if e.optionsOk && e.exportOk then 0 else 2)
  else none

/-- Modelled from the spec: the (processed, skipped, failed) counts
of a run of the depth variant, as section 4.5 describes them. -/
def specCountsDepth (entries : List Entry) : Nat × Nat × Nat :=
  ((entries.filterMap depthFileClass).count 0,
   (entries.filterMap depthFileClass).count 1,
   (entries.filterMap depthFileClass).count 2)

/-! ## Concrete cell files and entries used in the theorems below -/

/-- A cell file whose only layer is DEPARE with its depth field, with
one usable feature, one NULL feature and one empty-string feature. -/
def cellDepare : CellFile :=
  ⟨[⟨"DEPARE", ["DRVAL1"],
     [⟨[("DRVAL1", some "5")]⟩, ⟨[("DRVAL1", none)]⟩, ⟨[("DRVAL1", some "")]⟩]⟩]⟩

/-- A cell file whose DEPARE layer exists but whose schema lacks the
DRVAL1 depth field. -/
def cellDepareNoField : CellFile :=
  ⟨[⟨"DEPARE", ["FOO"], [⟨[("FOO", some "1")]⟩]⟩]⟩

/-- A cell file whose only matching layer is the land-area layer,
with one feature carrying an unrelated field. -/
def cellLndare : CellFile :=
  ⟨[⟨"LNDARE", ["OBJL"], [⟨[("OBJL", some "71")]⟩]⟩]⟩

/-- A cell file whose only layer is SOUNDG with its depth field. -/
def cellSoundg : CellFile :=
  ⟨[⟨"SOUNDG", ["DEPTH"], [⟨[("DEPTH", some "3")]⟩]⟩]⟩

/-- A cell file whose LNDARE layer carries the NOBJNM filter field. -/
def cellLndareNamed : CellFile :=
  ⟨[⟨"LNDARE", ["NOBJNM"], [⟨[("NOBJNM", some "isle")]⟩]⟩]⟩

/-- A cell file with no layers at all. -/
def cellEmpty : CellFile := ⟨[]⟩

/-- A candidate entry whose open fails. -/
def entryOpenFail : Entry := ⟨"in/x.000", "x.000", ".000", none, true, true⟩

/-- A candidate entry that opens and plans but whose export fails. -/
def entryExportFail : Entry := ⟨"in/y.000", "y.000", ".000", some cellDepare, true, false⟩

/-- A candidate entry whose plan is empty (no target layer). -/
def entryEmptyPlan : Entry := ⟨"in/z.000", "z.000", ".000", some cellEmpty, true, true⟩

/-- A candidate entry over cellDepare whose export succeeds. -/
def entryDepare : Entry := ⟨"in/q.000", "q.000", ".000", some cellDepare, true, true⟩

/-- A candidate entry over cellSoundg whose export succeeds. -/
def entrySoundg : Entry := ⟨"in/r.000", "r.000", ".000", some cellSoundg, true, true⟩

/-- A candidate entry over cellLndare whose export succeeds. -/
def entryLndare : Entry := ⟨"US5XX01M.000", "US5XX01M.000", ".000", some cellLndare, true, true⟩

/-- A candidate entry over cellLndareNamed whose export succeeds. -/
def entryLndareNamed : Entry := ⟨"in/s.000", "s.000", ".000", some cellLndareNamed, true, true⟩

/-! ## Lemmas: the structured fragments agree with the SQL strings -/

theorem depthFragOf_render (ds : CellFile) (a : String) :
    (depthFragOf ds a).map Fragment.render = depthSqlOf ds a := by
  unfold depthFragOf depthSqlOf
  cases h : ds.getLayerByName a with
  | none => rfl
  | some l =>
    by_cases hb : a == "LNDARE"
    · simp [hb, Fragment.render]
    · simp only [hb, if_neg, Bool.false_eq_true, ite_false]
      cases hl : depth_map.lookup a with
      | none => rfl
      | some f => simp [Fragment.render]

theorem nobjnmFragOf_render (ds : CellFile) (ff : String) (lvl : Char) (a : String) :
    (nobjnmFragOf ds ff lvl a).map Fragment.render = nobjnmSqlOf ds ff lvl a := by
  unfold nobjnmFragOf nobjnmSqlOf
  cases h : ds.getLayerByName a with
  | none => rfl
  | some l =>
    by_cases hb : ff ∈ l.fieldNames
    · simp [hb, Fragment.render]
    · simp [hb]

theorem depth_parts_eq_render (ds : CellFile) :
    depth_sql_parts ds = (depth_fragments ds).map Fragment.render := by
  unfold depth_sql_parts depth_fragments
  rw [List.map_filterMap]
  exact (List.filterMap_congr (fun a _ => (depthFragOf_render ds a).symm))

theorem nobjnm_parts_eq_render (ds : CellFile) (tls : List String) (ff : String) (lvl : Char) :
    nobjnm_sql_parts ds tls ff lvl = (nobjnm_fragments ds tls ff lvl).map Fragment.render := by
  unfold nobjnm_sql_parts nobjnm_fragments
  rw [List.map_filterMap]
  exact (List.filterMap_congr (fun a _ => (nobjnmFragOf_render ds ff lvl a).symm))

/-! ## Lemmas: what the fragment builders produce -/

theorem depthFragOf_spec (ds : CellFile) (a : String) (fr : Fragment)
    (h : depthFragOf ds a = some fr) :
    fr.layer = a ∧ (ds.getLayerByName a).isSome ∧ fr.level = none ∧
      (a = "LNDARE" ∧ fr = ⟨a, none, .constNeg1, none⟩ ∨
       ∃ f, depth_map.lookup a = some f ∧ fr = ⟨a, none, .castField f, some f⟩) := by
  unfold depthFragOf at h
  cases hds : ds.getLayerByName a with
  | none => simp [hds] at h
  | some l =>
    simp only [hds] at h
    by_cases hb : a = "LNDARE"
    · simp only [hb, beq_self_eq_true, if_true, Option.some.injEq] at h
      subst hb
      exact ⟨by rw [← h], by simp [hds], by rw [← h], Or.inl ⟨rfl, h.symm⟩⟩
    · simp only [beq_iff_eq, hb, if_false] at h
      cases hl : depth_map.lookup a with
      | none => simp [hl] at h
      | some f =>
        simp only [hl, Option.some.injEq] at h
        exact ⟨by rw [← h], by simp [hds], by rw [← h], Or.inr ⟨f, rfl, h.symm⟩⟩

theorem nobjnmFragOf_spec (ds : CellFile) (ff : String) (lvl : Char) (a : String)
    (fr : Fragment) (h : nobjnmFragOf ds ff lvl a = some fr) :
    fr = ⟨a, some lvl, .rawField ff, some ff⟩ ∧
      ∃ l, ds.getLayerByName a = some l ∧ ff ∈ l.fieldNames := by
  unfold nobjnmFragOf at h
  cases hds : ds.getLayerByName a with
  | none => simp [hds] at h
  | some l =>
    simp only [hds] at h
    by_cases hb : ff ∈ l.fieldNames
    · simp only [List.elem_eq_true_of_mem hb, if_true, Option.some.injEq] at h
      exact ⟨h.symm, l, rfl, hb⟩
    · simp [hb] at h

theorem all_target_layers_eq :
    all_target_layers =
      ["LNDARE", "DEPARE", "DEPCNT", "DRGARE", "OBSTRN", "SOUNDG", "UWTROC", "WRECKS"] := by
  decide

theorem mem_all_target_layers_lookup (a : String) (h : a ∈ all_target_layers) :
    a = "LNDARE" ∨ (depth_map.lookup a).isSome := by
  rw [all_target_layers_eq] at h
  fin_cases h <;> decide

/-! ## Lemmas: the export loop -/

theorem runLoop_nil (mk : Bool → Entry → Option ExportCall) (st : Bool) :
    runLoop mk [] st = (st, []) := rfl

theorem runLoop_cons_none (mk : Bool → Entry → Option ExportCall) (st : Bool) (e : Entry)
    (es : List Entry) (h : mk st e = none) :
    runLoop mk (e :: es) st = runLoop mk es st := by
  simp only [runLoop, h]

theorem runLoop_cons_some (mk : Bool → Entry → Option ExportCall) (st : Bool) (e : Entry)
    (es : List Entry) (c : ExportCall) (h : mk st e = some c) :
    runLoop mk (e :: es) st =
      ((runLoop mk es (if c.ok then false else st)).1,
       c :: (runLoop mk es (if c.ok then false else st)).2) := by
  simp only [runLoop, h]

theorem runLoop_final (mk : Bool → Entry → Option ExportCall) :
    ∀ (es : List Entry) (st : Bool),
      (runLoop mk es st).1 = (st && !((runLoop mk es st).2.any (fun c => c.ok)))
  | [], st => by simp [runLoop_nil]
  | e :: es, st => by
    cases hc : mk st e with
    | none => rw [runLoop_cons_none mk st e es hc]; exact runLoop_final mk es st
    | some c =>
      rw [runLoop_cons_some mk st e es c hc]
      cases hok : c.ok with
      | true =>
        simp only [hok, if_true, List.any_cons, Bool.true_or, Bool.not_true, Bool.and_false]
        have := runLoop_final mk es false
        simp only [Bool.false_and] at this
        exact this
      | false =>
        simp only [hok, if_false, List.any_cons, Bool.false_or]
        exact runLoop_final mk es st

theorem runLoop_calls_append (mk : Bool → Entry → Option ExportCall)
    (hmk : ∀ st e c, mk st e = some c → c.append = !st) :
    ∀ (es : List Entry) (st : Bool) (i : Nat) (c : ExportCall),
      (runLoop mk es st).2[i]? = some c →
      c.append = (!st || ((runLoop mk es st).2.take i).any (fun c => c.ok))
  | [], st, i, c, h => by simp [runLoop_nil] at h
  | e :: es, st, i, c, h => by
    cases hc : mk st e with
    | none =>
      rw [runLoop_cons_none mk st e es hc] at h ⊢
      exact runLoop_calls_append mk hmk es st i c h
    | some c0 =>
      rw [runLoop_cons_some mk st e es c0 hc] at h ⊢
      cases i with
      | zero =>
        simp only [List.getElem?_cons_zero, Option.some.injEq] at h
        subst h
        simpa using hmk st e c0 hc
      | succ j =>
        simp only [List.getElem?_cons_succ] at h
        simp only [List.take_succ_cons, List.any_cons]
        have ih := runLoop_calls_append mk hmk es (if c0.ok then false else st) j c h
        rw [ih]
        cases hok : c0.ok with
        | true => simp [hok]
        | false => simp [hok]

theorem runLoop_mem (mk : Bool → Entry → Option ExportCall) :
    ∀ (es : List Entry) (st : Bool) (c : ExportCall), c ∈ (runLoop mk es st).2 →
      ∃ st' e, mk st' e = some c
  | [], st, c, h => by simp [runLoop_nil] at h
  | e :: es, st, c, h => by
    cases hc : mk st e with
    | none =>
      rw [runLoop_cons_none mk st e es hc] at h
      exact runLoop_mem mk es st c h
    | some c0 =>
      rw [runLoop_cons_some mk st e es c0 hc] at h
      rcases List.mem_cons.mp h with h0 | h1
      · exact ⟨st, e, by rw [hc, h0]⟩
      · exact runLoop_mem mk es (if c0.ok then false else st) c h1

theorem runLoop_concat (mk : Bool → Entry → Option ExportCall) :
    ∀ (xs ys : List Entry) (st : Bool),
      runLoop mk (xs ++ ys) st =
        ((runLoop mk ys (runLoop mk xs st).1).1,
         (runLoop mk xs st).2 ++ (runLoop mk ys (runLoop mk xs st).1).2)
  | [], ys, st => by simp [runLoop_nil]
  | x :: xs, ys, st => by
    cases hc : mk st x with
    | none =>
      rw [List.cons_append, runLoop_cons_none mk st x (xs ++ ys) hc,
        runLoop_cons_none mk st x xs hc]
      exact runLoop_concat mk xs ys st
    | some c =>
      rw [List.cons_append, runLoop_cons_some mk st x (xs ++ ys) c hc,
        runLoop_cons_some mk st x xs c hc]
      rw [runLoop_concat mk xs ys (if c.ok then false else st)]
      simp

/-! ## Lemmas: the per-entry bodies -/

theorem mkDepth_spec (d n : String) (st : Bool) (e : Entry) (c : ExportCall)
    (h : mkDepth d n st e = some c) :
    c.dest = d ∧ c.name = n ∧ c.append = !st ∧ c.ok = e.exportOk ∧
      c.opts = depthOpts st c.sql n ∧
      ∃ ds, e.file = some ds ∧ ¬(depth_sql_parts ds).isEmpty = true ∧
        c.sql = String.intercalate " UNION ALL " (depth_sql_parts ds) := by
  unfold mkDepth at h
  split at h
  · cases hfile : e.file with
    | none => simp [hfile] at h
    | some ds =>
      simp only [hfile] at h
      split at h
      · simp at h
      · split at h
        · cases h
          refine ⟨rfl, rfl, rfl, rfl, rfl, ds, rfl, ?_, rfl⟩
          simp_all
        · simp at h
  · simp at h

theorem mkNobjnm_spec (d n : String) (tls : List String) (ff : String) (st : Bool)
    (e : Entry) (c : ExportCall) (h : mkNobjnm d n tls ff st e = some c) :
    c.dest = d ∧ c.name = n ∧ c.append = !st ∧ c.ok = e.exportOk ∧
      c.opts = nobjnmOpts st c.sql n ∧
      ∃ ds, e.file = some ds ∧
        ¬(nobjnm_sql_parts ds tls ff (levelOfFilename e.filename)).isEmpty = true ∧
        c.sql = String.intercalate " UNION ALL "
          (nobjnm_sql_parts ds tls ff (levelOfFilename e.filename)) := by
  unfold mkNobjnm at h
  split at h
  · cases hfile : e.file with
    | none => simp [hfile] at h
    | some ds =>
      simp only [hfile] at h
      split at h
      · simp at h
      · split at h
        · cases h
          refine ⟨rfl, rfl, rfl, rfl, rfl, ds, rfl, ?_, rfl⟩
          simp_all
        · simp at h
  · simp at h

/-! ## Lemmas: projections of a run -/

theorem runDepth_calls (d n : String) (fs : Option (List String)) (es : List Entry)
    (sf : Bool) : (runDepth d n fs es sf).calls = (runLoop (mkDepth d n) es true).2 := rfl

theorem runDepth_flag (d n : String) (fs : Option (List String)) (es : List Entry)
    (sf : Bool) :
    (runDepth d n fs es sf).firstWriteFinal = (runLoop (mkDepth d n) es true).1 := rfl

theorem runNobjnm_calls (d n : String) (tls : List String) (ff : String)
    (fs : Option (List String)) (es : List Entry) (sf : Bool) :
    (runNobjnm d n tls ff fs es sf).calls = (runLoop (mkNobjnm d n tls ff) es true).2 := rfl

theorem runNobjnm_flag (d n : String) (tls : List String) (ff : String)
    (fs : Option (List String)) (es : List Entry) (sf : Bool) :
    (runNobjnm d n tls ff fs es sf).firstWriteFinal =
      (runLoop (mkNobjnm d n tls ff) es true).1 := rfl

/-! ## Claim C4 -/

/-- Claim C4: in every run the isFirstWrite flag starts true and
flips to false exactly when an export first succeeds (a failed export
never flips it); an export call is made in append mode if and only if
some earlier export call of the same run succeeded, and every call of
the run targets the one configured destination and output name; this
holds for both variants. -/
theorem append_iff_prior_success
    (dD nD dN nN : String) (tls : List String) (ff : String)
    (fsD fsN : Option (List String)) (esD esN : List Entry) (sfD sfN : Bool)
    (i j : Nat) (ci cj : ExportCall)
    (hi : (runDepth dD nD fsD esD sfD).calls[i]? = some ci)
    (hj : (runNobjnm dN nN tls ff fsN esN sfN).calls[j]? = some cj) :
    ci.append = ((runDepth dD nD fsD esD sfD).calls.take i).any (fun c => c.ok) ∧
    ci.dest = dD ∧ ci.name = nD ∧
    (runDepth dD nD fsD esD sfD).firstWriteFinal =
      !((runDepth dD nD fsD esD sfD).calls.any (fun c => c.ok)) ∧
    cj.append = ((runNobjnm dN nN tls ff fsN esN sfN).calls.take j).any (fun c => c.ok) ∧
    cj.dest = dN ∧ cj.name = nN ∧
    (runNobjnm dN nN tls ff fsN esN sfN).firstWriteFinal =
      !((runNobjnm dN nN tls ff fsN esN sfN).calls.any (fun c => c.ok)) := by
  rw [runDepth_calls] at hi ⊢
  rw [runNobjnm_calls] at hj ⊢
  have hmkD : ∀ st e c, mkDepth dD nD st e = some c → c.append = !st :=
    fun st e c h => (mkDepth_spec dD nD st e c h).2.2.1
  have hmkN : ∀ st e c, mkNobjnm dN nN tls ff st e = some c → c.append = !st :=
    fun st e c h => (mkNobjnm_spec dN nN tls ff st e c h).2.2.1
  have hD := runLoop_calls_append (mkDepth dD nD) hmkD esD true i ci hi
  have hN := runLoop_calls_append (mkNobjnm dN nN tls ff) hmkN esN true j cj hj
  simp only [Bool.not_true, Bool.false_or] at hD hN
  have hmemD := runLoop_mem (mkDepth dD nD) esD true ci (List.getElem?_mem hi)
  have hmemN := runLoop_mem (mkNobjnm dN nN tls ff) esN true cj (List.getElem?_mem hj)
  obtain ⟨stD, eD, hcD⟩ := hmemD
  obtain ⟨stN, eN, hcN⟩ := hmemN
  have hfD := runLoop_final (mkDepth dD nD) esD true
  have hfN := runLoop_final (mkNobjnm dN nN tls ff) esN true
  simp only [Bool.true_and] at hfD hfN
  exact ⟨hD, (mkDepth_spec dD nD stD eD ci hcD).1, (mkDepth_spec dD nD stD eD ci hcD).2.1,
    hfD, hN, (mkNobjnm_spec dN nN tls ff stN eN cj hcN).1,
    (mkNobjnm_spec dN nN tls ff stN eN cj hcN).2.1, hfN⟩

/-- The second export call of the concrete depth run used in the C4
witness: issued in append mode because the first call succeeded. -/
def c4DepthCall : ExportCall :=
  ⟨"o", "d", true, depthFieldSql "DEPARE" "DRVAL1",
   depthOpts false (depthFieldSql "DEPARE" "DRVAL1") "d", true⟩

/-- The only export call of the concrete nobjnm run used in the C4
witness: issued without append because it is the first write. -/
def c4NobjnmCall : ExportCall :=
  ⟨"o2", "n", false, nobjnmFieldSql '0' "LNDARE" "NOBJNM",
   nobjnmOpts true (nobjnmFieldSql '0' "LNDARE" "NOBJNM") "n", true⟩

/-- Witness for C4: a concrete two-file depth run whose second call
is in append mode after the first success, and a concrete one-file
nobjnm run whose only call is not appended. -/
theorem append_iff_prior_success_witness :
    (runDepth "o" "d" none [entryLndare, entryDepare] false).calls[1]? = some c4DepthCall ∧
    (runNobjnm "o2" "n" defaultLayers "NOBJNM" none [entryLndareNamed]
        false).calls[0]? = some c4NobjnmCall ∧
    (c4DepthCall.append =
        ((runDepth "o" "d" none [entryLndare, entryDepare] false).calls.take 1).any
          (fun c => c.ok) ∧
      c4DepthCall.dest = "o" ∧ c4DepthCall.name = "d" ∧
      (runDepth "o" "d" none [entryLndare, entryDepare] false).firstWriteFinal =
        !((runDepth "o" "d" none [entryLndare, entryDepare] false).calls.any
          (fun c => c.ok)) ∧
      c4NobjnmCall.append =
        ((runNobjnm "o2" "n" defaultLayers "NOBJNM" none [entryLndareNamed]
            false).calls.take 0).any (fun c => c.ok) ∧
      c4NobjnmCall.dest = "o2" ∧ c4NobjnmCall.name = "n" ∧
      (runNobjnm "o2" "n" defaultLayers "NOBJNM" none [entryLndareNamed]
          false).firstWriteFinal =
        !((runNobjnm "o2" "n" defaultLayers "NOBJNM" none [entryLndareNamed]
            false).calls.any (fun c => c.ok))) :=
  ⟨by decide, by decide,
   append_iff_prior_success "o" "d" "o2" "n" defaultLayers "NOBJNM" none none
     [entryLndare, entryDepare] [entryLndareNamed] false false 1 0 c4DepthCall c4NobjnmCall
     (by decide) (by decide)⟩

theorem runDepth_dest (d n : String) (fs : Option (List String)) (es : List Entry)
    (sf : Bool) :
    (runDepth d n fs es sf).dest =
      (runLoop (mkDepth d n) es true).2.foldl applyExport
        (if fs.isSome then none else fs) := rfl

/-! ## Claim C5 -/

/-- Claim C5: at the start of every run the pre-existing output
destination is deleted in its entirety before any file is processed:
the final destination content never depends on the prior content, and
a run over no files leaves a previously existing destination deleted;
this holds for both variants. -/
theorem output_destination_reset_per_run
    (dD nD dN nN : String) (tls : List String) (ff : String)
    (dest0 : Option (List String)) (prior : List String)
    (es : List Entry) (sf sf2 : Bool) :
    (runDepth dD nD dest0 es sf).dest = (runDepth dD nD none es sf).dest ∧
    (runDepth dD nD (some prior) [] sf).dest = none ∧
    (runNobjnm dN nN tls ff dest0 es sf2).dest =
      (runNobjnm dN nN tls ff none es sf2).dest ∧
    (runNobjnm dN nN tls ff (some prior) [] sf2).dest = none := by
  refine ⟨?_, rfl, ?_, rfl⟩ <;> cases dest0 <;> rfl

/-! ## Claim C6 (corrected) -/

/-- Counterexample to C6: the programs maintain no
processed/skipped/failed counters and return no such report.  A run
that skips its only file for an open failure and a run that fails the
export of its only file return the same exit code, the same final run
state (the isFirstWrite flag) and the same destination, although the
per-file terminal-state counts of the spec differ. -/
theorem run_reports_no_counters_cex :
    ((runDepth "o" "d" none [entryOpenFail] false).exit,
     (runDepth "o" "d" none [entryOpenFail] false).firstWriteFinal,
     (runDepth "o" "d" none [entryOpenFail] false).dest) =
    ((runDepth "o" "d" none [entryExportFail] false).exit,
     (runDepth "o" "d" none [entryExportFail] false).firstWriteFinal,
     (runDepth "o" "d" none [entryExportFail] false).dest) ∧
    specCountsDepth [entryOpenFail] ≠ specCountsDepth [entryExportFail] :=
  ⟨by decide, by decide⟩

/-- Amended C6: on completion the run yields only an exit code (0
when the scan completed, 1 on traversal failure) and the isFirstWrite
flag as its sole cross-file state; per-file outcomes are logged but
not counted, so a run whose last file is skipped (open failure) and a
run whose last file fails its export are indistinguishable in exit
code, final flag and destination content. -/
theorem run_state_is_flag_only (d n : String) (fs : Option (List String))
    (pre es : List Entry) :
    (runDepth d n fs (pre ++ [entryOpenFail]) false).exit = 0 ∧
    (runDepth d n fs (pre ++ [entryOpenFail]) false).firstWriteFinal =
      (runDepth d n fs (pre ++ [entryExportFail]) false).firstWriteFinal ∧
    (runDepth d n fs (pre ++ [entryOpenFail]) false).dest =
      (runDepth d n fs (pre ++ [entryExportFail]) false).dest ∧
    (runDepth d n fs es true).exit = 1 := by
  refine ⟨rfl, ?_, ?_, rfl⟩
  · rw [runDepth_flag, runDepth_flag, runLoop_concat, runLoop_concat]
    cases hc : mkDepth d n (runLoop (mkDepth d n) pre true).1 entryExportFail with
    | none =>
      rw [runLoop_cons_none _ _ _ _ hc, runLoop_cons_none _ _ _ _ rfl]
    | some c =>
      have hok : c.ok = false := (mkDepth_spec d n _ _ c hc).2.2.2.1
      rw [runLoop_cons_some _ _ _ _ c hc, runLoop_cons_none _ _ _ _ rfl]
      simp [hok, runLoop_nil]
  · rw [runDepth_dest, runDepth_dest, runLoop_concat, runLoop_concat]
    cases hc : mkDepth d n (runLoop (mkDepth d n) pre true).1 entryExportFail with
    | none =>
      rw [runLoop_cons_none _ _ _ _ hc, runLoop_cons_none _ _ _ _ rfl]
    | some c =>
      have hok : c.ok = false := (mkDepth_spec d n _ _ c hc).2.2.2.1
      rw [runLoop_cons_some _ _ _ _ c hc, runLoop_cons_none _ _ _ _ rfl]
      simp [hok, runLoop_nil, applyExport]

/-! ## Claim C7 -/

/-- Claim C7: per-file problems (open failure, empty plan) are
handled at the file boundary and the loop continues unchanged; the
process exit code is independent of the per-file outcomes: a
completed scan exits 0, a traversal failure exits 1, a command-line
validation failure exits 1, and help exits 0, in both variants. -/
theorem per_file_problems_never_change_exit
    (aD : DepthArgs) (aN : NobjnmArgs) (fs1 fs2 : Option (List String))
    (es1 es2 : List Entry) (sf1 sf2 : Bool) (st : Bool) (es : List Entry) :
    mainDepth .parseError fs1 es1 sf1 = 1 ∧
    mainDepth .helpShown fs1 es1 sf1 = 0 ∧
    mainDepth (.parsed aD) fs1 es1 sf1 = (if sf1 then 1 else 0) ∧
    mainNobjnm .parseError fs2 es2 sf2 = 1 ∧
    mainNobjnm .helpShown fs2 es2 sf2 = 0 ∧
    mainNobjnm (.parsed aN) fs2 es2 sf2 = (if sf2 then 1 else 0) ∧
    runLoop (mkDepth aD.outputDir aD.outputName) (entryOpenFail :: es) st =
      runLoop (mkDepth aD.outputDir aD.outputName) es st ∧
    runLoop (mkDepth aD.outputDir aD.outputName) (entryEmptyPlan :: es) st =
      runLoop (mkDepth aD.outputDir aD.outputName) es st ∧
    runLoop (mkNobjnm aN.outputDir aN.outputName aN.targetLayers aN.filterField)
        (entryOpenFail :: es) st =
      runLoop (mkNobjnm aN.outputDir aN.outputName aN.targetLayers aN.filterField) es st := by
  refine ⟨rfl, rfl, rfl, rfl, rfl, rfl, ?_, ?_, ?_⟩
  · exact runLoop_cons_none _ st entryOpenFail es rfl
  · exact runLoop_cons_none _ st entryEmptyPlan es rfl
  · exact runLoop_cons_none _ st entryOpenFail es rfl

/-! ## Claim C1 (corrected) -/

/-- Counterexample to C1: the depth variant performs no
field-existence check.  For a cell file whose DEPARE layer exists but
whose schema lacks the DRVAL1 field, the layer is not skipped: the
query fragment referencing the nonexistent DRVAL1 column is still
built. -/
theorem field_check_missing_in_depth_variant_cex :
    depth_sql_parts cellDepareNoField = [depthFieldSql "DEPARE" "DRVAL1"] ∧
    ((cellDepareNoField.getLayerByName "DEPARE").getD
        ⟨"", [], []⟩).fieldNames.contains "DRVAL1" = false ∧
    (cellDepareNoField.getLayerByName "DEPARE").isSome = true :=
  ⟨by decide, by decide, by decide⟩

/-- Amended C1: only the generic (FieldFilter) variant checks that
the required field exists in the layer schema before building a
fragment for the layer, skipping the layer when the field is missing;
the depth (FieldCast) variant builds its fragment whenever the layer
is present, with no field check. -/
theorem fragment_presence_checks (ds : CellFile) (tls : List String) (ff : String)
    (lvl : Char) (ln : String) :
    ((∃ fr ∈ nobjnm_fragments ds tls ff lvl, fr.layer = ln) ↔
      ln ∈ tls ∧ ∃ l, ds.getLayerByName ln = some l ∧ ff ∈ l.fieldNames) ∧
    ((∃ fr ∈ depth_fragments ds, fr.layer = ln) ↔
      ln ∈ all_target_layers ∧ (ds.getLayerByName ln).isSome) := by
  constructor
  · constructor
    · rintro ⟨fr, hmem, hlayer⟩
      obtain ⟨a, ha, hfr⟩ := List.mem_filterMap.mp hmem
      obtain ⟨heq, l, hds, hffl⟩ := nobjnmFragOf_spec ds ff lvl a fr hfr
      subst heq
      simp only at hlayer
      subst hlayer
      exact ⟨ha, l, hds, hffl⟩
    · rintro ⟨htl, l, hds, hffl⟩
      refine ⟨⟨ln, some lvl, .rawField ff, some ff⟩, ?_, rfl⟩
      exact List.mem_filterMap.mpr
        ⟨ln, htl, by simp [nobjnmFragOf, hds, hffl]⟩
  · constructor
    · rintro ⟨fr, hmem, hlayer⟩
      obtain ⟨a, ha, hfr⟩ := List.mem_filterMap.mp hmem
      obtain ⟨hl, hsome, _, _⟩ := depthFragOf_spec ds a fr hfr
      have hae : a = ln := by rw [← hl, hlayer]
      subst hae
      exact ⟨ha, hsome⟩
    · rintro ⟨htl, hsome⟩
      obtain ⟨l, hds⟩ := Option.isSome_iff_exists.mp hsome
      by_cases hln : ln = "LNDARE"
      · subst hln
        refine ⟨⟨"LNDARE", none, .constNeg1, none⟩, ?_, rfl⟩
        exact List.mem_filterMap.mpr ⟨"LNDARE", htl, by simp [depthFragOf, hds]⟩
      · rcases mem_all_target_layers_lookup ln htl with hLND | hlk
        · exact absurd hLND hln
        · obtain ⟨f, hf⟩ := Option.isSome_iff_exists.mp hlk
          refine ⟨⟨ln, none, .castField f, some f⟩, ?_, rfl⟩
          exact List.mem_filterMap.mpr ⟨ln, htl, by simp [depthFragOf, hds, hln, hf]⟩

/-! ## Claim C2 -/

theorem evalFragment_filter (ds : CellFile) (fr : Fragment) (f : String) (r : Row)
    (hwf : fr.whereField = some f) (hr : r ∈ evalFragment ds fr) :
    r.src.get f ≠ none ∧ r.src.get f ≠ some "" := by
  unfold evalFragment at hr
  cases hds : ds.getLayerByName fr.layer with
  | none => simp [hds] at hr
  | some l =>
    simp only [hds] at hr
    obtain ⟨feat, hfm, hrq⟩ := List.mem_map.mp hr
    have hpass := (List.mem_filter.mp hfm).2
    rw [hwf] at hpass
    simp only [passesFilter] at hpass
    cases hg : feat.get f with
    | none => simp only [hg] at hpass; exact absurd hpass (by simp)
    | some v =>
      simp only [hg] at hpass
      have hv : v ≠ "" := by simpa using hpass
      have hsrc : r.src = feat := by rw [← hrq]
      rw [hsrc, hg]
      exact ⟨by simp, by simp [hv]⟩

/-- Claim C2: every row produced under a FieldCast (depth variant,
non-LNDARE) or FieldFilter (generic variant) fragment has a non-null,
non-empty source field value: the fragment text ends with the
row filter requiring the field IS NOT NULL AND != the empty string,
and under the modelled query execution no row with a NULL or
empty-string field value is produced. -/
theorem field_rows_nonnull_nonempty (ds : CellFile) (tls : List String) (ff : String)
    (lvl : Char) (fr : Fragment) (r : Row)
    (hfr : (fr ∈ depth_fragments ds ∧ fr.layer ≠ "LNDARE") ∨
      fr ∈ nobjnm_fragments ds tls ff lvl)
    (hr : r ∈ evalFragment ds fr) :
    ∃ f, fr.whereField = some f ∧
      (∃ p, Fragment.render fr = p ++ whereNonEmpty f) ∧
      r.src.get f ≠ none ∧ r.src.get f ≠ some "" := by
  rcases hfr with ⟨hmem, hne⟩ | hmem
  · obtain ⟨a, _, hfr'⟩ := List.mem_filterMap.mp hmem
    obtain ⟨hl, _, _, hcase⟩ := depthFragOf_spec ds a fr hfr'
    rcases hcase with ⟨haL, hfrL⟩ | ⟨f, _, hfrC⟩
    · exact absurd (hl.trans haL) hne
    · subst hfrC
      exact ⟨f, rfl, ⟨_, rfl⟩, evalFragment_filter ds _ f r rfl hr⟩
  · obtain ⟨a, _, hfr'⟩ := List.mem_filterMap.mp hmem
    obtain ⟨heq, _, _, _⟩ := nobjnmFragOf_spec ds ff lvl a fr hfr'
    subst heq
    exact ⟨ff, rfl, ⟨_, rfl⟩, evalFragment_filter ds _ ff r rfl hr⟩

/-- The DEPARE fragment of cellDepare, used in the C2 witness. -/
def c2Frag : Fragment := ⟨"DEPARE", none, .castField "DRVAL1", some "DRVAL1"⟩

/-- The single row cellDepare yields under c2Frag (its NULL and
empty-string features are filtered out), used in the C2 witness. -/
def c2Row : Row := ⟨none, "DEPARE", .castReal (some "5"), ⟨[("DRVAL1", some "5")]⟩⟩

/-- Witness for C2 at the concrete cell file cellDepare: of its three
DEPARE features only the one with a usable depth value yields a row,
and that row has a non-null non-empty field value. -/
theorem field_rows_nonnull_nonempty_witness :
    (c2Frag ∈ depth_fragments cellDepare ∧ c2Frag.layer ≠ "LNDARE") ∧
    c2Row ∈ evalFragment cellDepare c2Frag ∧
    evalFragment cellDepare c2Frag = [c2Row] ∧
    (∃ f, c2Frag.whereField = some f ∧
      (∃ p, Fragment.render c2Frag = p ++ whereNonEmpty f) ∧
      c2Row.src.get f ≠ none ∧ c2Row.src.get f ≠ some "") :=
  ⟨⟨by decide, by decide⟩, by decide, by decide,
   field_rows_nonnull_nonempty cellDepare [] "" '0' c2Frag c2Row
     (Or.inl ⟨by decide, by decide⟩) (by decide)⟩

/-! ## Claim C3 -/

/-- The structured fragment of the Constant rule of the depth
variant: the land-area layer with fixed depth -1 and no row filter. -/
def lndareFragment : Fragment := ⟨"LNDARE", none, .constNeg1, none⟩

/-- Claim C3: when the LNDARE layer is present, its fragment is part
of the plan, carries no row filter, and under the modelled query
execution every feature of the layer yields exactly one row whose
attribute is the fixed constant -1, regardless of the feature fields. -/
theorem constant_rule_rows (ds : CellFile) (l : Layer)
    (h : ds.getLayerByName "LNDARE" = some l) :
    lndareFragment ∈ depth_fragments ds ∧
    lndareFragment.whereField = none ∧
    evalFragment ds lndareFragment =
      l.features.map (fun f => ⟨none, "LNDARE", .intConst (-1), f⟩) := by
  refine ⟨?_, rfl, ?_⟩
  · unfold depth_fragments
    apply List.mem_filterMap.mpr
    refine ⟨"LNDARE", by rw [all_target_layers_eq]; simp, ?_⟩
    simp [depthFragOf, h, lndareFragment]
  · unfold evalFragment lndareFragment
    simp only [h]
    simp [passesFilter, projAttr]

/-- Witness for C3: the spec scenario of a cell file whose only
matching layer is the land-area layer: exactly one row, attribute the
land sentinel -1, layer tag LNDARE. -/
theorem constant_rule_rows_witness :
    cellLndare.getLayerByName "LNDARE" =
      some ⟨"LNDARE", ["OBJL"], [⟨[("OBJL", some "71")]⟩]⟩ ∧
    (lndareFragment ∈ depth_fragments cellLndare ∧
     lndareFragment.whereField = none ∧
     evalFragment cellLndare lndareFragment =
       [⟨none, "LNDARE", .intConst (-1), ⟨[("OBJL", some "71")]⟩⟩]) :=
  ⟨by decide,
   constant_rule_rows cellLndare ⟨"LNDARE", ["OBJL"], [⟨[("OBJL", some "71")]⟩]⟩ (by decide)⟩

/-! ## Claim C8 -/

theorem evalQuery_level (ds : CellFile) (frs : List Fragment) (r : Row)
    (hr : r ∈ evalQuery ds frs) : ∃ fr ∈ frs, r.level = fr.level := by
  unfold evalQuery at hr
  obtain ⟨rows, hrows, hrmem⟩ := List.mem_flatten.mp hr
  obtain ⟨fr, hfr, hrw⟩ := List.mem_map.mp hrows
  refine ⟨fr, hfr, ?_⟩
  rw [← hrw] at hrmem
  unfold evalFragment at hrmem
  cases hds : ds.getLayerByName fr.layer with
  | none => simp [hds] at hrmem
  | some l =>
    simp only [hds] at hrmem
    obtain ⟨feat, _, hrq⟩ := List.mem_map.mp hrmem
    rw [← hrq]

/-- Claim C8: for every file of the generic variant the level code is
the third character of the filename when the filename has at least
three characters and the default character 0 otherwise; it is
attached as the level tag of every fragment and of every row produced
from that file. -/
theorem level_code_attached (ds : CellFile) (tls : List String) (ff fn : String)
    (fr : Fragment) (r : Row)
    (hfr : fr ∈ nobjnm_fragments ds tls ff (levelOfFilename fn))
    (hr : r ∈ evalQuery ds (nobjnm_fragments ds tls ff (levelOfFilename fn))) :
    fr.level = some (if 3 ≤ fn.length then fn.data.getD 2 '0' else '0') ∧
    r.level = some (if 3 ≤ fn.length then fn.data.getD 2 '0' else '0') := by
  have hlevel : ∀ fr' ∈ nobjnm_fragments ds tls ff (levelOfFilename fn),
      fr'.level = some (levelOfFilename fn) := by
    intro fr' h
    obtain ⟨a, _, hf⟩ := List.mem_filterMap.mp h
    obtain ⟨heq, _⟩ := nobjnmFragOf_spec ds ff (levelOfFilename fn) a fr' hf
    rw [heq]
  obtain ⟨fr', hfr', hlev⟩ := evalQuery_level ds _ r hr
  exact ⟨hlevel fr hfr, hlev.trans (hlevel fr' hfr')⟩

/-- The LNDARE fragment of the C8 witness, tagged with level 5, the
third character of the filename US5XX01M.000. -/
def c8Frag : Fragment := ⟨"LNDARE", some '5', .rawField "NOBJNM", some "NOBJNM"⟩

/-- The row of the C8 witness. -/
def c8Row : Row := ⟨some '5', "LNDARE", .textVal (some "isle"), ⟨[("NOBJNM", some "isle")]⟩⟩

/-- Witness for C8 at the concrete file name US5XX01M.000 over
cellLndareNamed: fragment and row both carry level 5. -/
theorem level_code_attached_witness :
    c8Frag ∈ nobjnm_fragments cellLndareNamed defaultLayers "NOBJNM"
      (levelOfFilename "US5XX01M.000") ∧
    c8Row ∈ evalQuery cellLndareNamed
      (nobjnm_fragments cellLndareNamed defaultLayers "NOBJNM"
        (levelOfFilename "US5XX01M.000")) ∧
    (c8Frag.level = some (if 3 ≤ ("US5XX01M.000" : String).length
        then ("US5XX01M.000" : String).data.getD 2 '0' else '0') ∧
     c8Row.level = some (if 3 ≤ ("US5XX01M.000" : String).length
        then ("US5XX01M.000" : String).data.getD 2 '0' else '0')) :=
  ⟨by decide, by decide,
   level_code_attached cellLndareNamed defaultLayers "NOBJNM" "US5XX01M.000" c8Frag c8Row
     (by decide) (by decide)⟩

/-! ## Claim C9 (corrected) -/

theorem depthSqlOf_shape (ds : CellFile) (a s : String) (h : depthSqlOf ds a = some s) :
    s = lndareSql a ∨ ∃ f, s = depthFieldSql a f := by
  unfold depthSqlOf at h
  cases hds : ds.getLayerByName a with
  | none => simp [hds] at h
  | some l =>
    simp only [hds] at h
    split at h
    · exact Or.inl (Option.some.inj h).symm
    · split at h
      · exact Or.inr ⟨_, (Option.some.inj h).symm⟩
      · simp at h

theorem nobjnmSqlOf_shape (ds : CellFile) (ff : String) (lvl : Char) (a s : String)
    (h : nobjnmSqlOf ds ff lvl a = some s) : s = nobjnmFieldSql lvl a ff := by
  unfold nobjnmSqlOf at h
  cases hds : ds.getLayerByName a with
  | none => simp [hds] at h
  | some l =>
    simp only [hds] at h
    split at h
    · exact (Option.some.inj h).symm
    · simp at h

theorem geomSelect_prefix_lndareSql (ln : String) :
    geomSelect.data <+: (lndareSql ln).data := by
  simp only [lndareSql, String.data_append, List.append_assoc]
  exact List.prefix_append _ _

theorem geomSelect_prefix_depthFieldSql (ln f : String) :
    geomSelect.data <+: (depthFieldSql ln f).data := by
  simp only [depthFieldSql, String.data_append, List.append_assoc]
  exact List.prefix_append _ _

theorem geomSelect_prefix_nobjnmFieldSql (lvl : Char) (ln f : String) :
    geomSelect.data <+: (nobjnmFieldSql lvl ln f).data := by
  simp only [nobjnmFieldSql, String.data_append, List.append_assoc]
  exact List.prefix_append _ _

/-- Counterexample to C9: the forced-2D dimensionality request is not
contributed by any designated layer.  In the depth variant it is
present on every export — for a file whose only present layer is
DEPARE as well as for a file whose only present layer is SOUNDG —
while the generic variant never requests it, even when the land-area
layer LNDARE is present. -/
theorem dim_request_not_layer_driven_cex :
    ((runDepth "o" "d" none [entryDepare] false).calls.map
      (fun c => c.opts.contains "-dim")) = [true] ∧
    ((runDepth "o" "d" none [entrySoundg] false).calls.map
      (fun c => c.opts.contains "-dim")) = [true] ∧
    ((runNobjnm "o2" "n" defaultLayers "NOBJNM" none [entryLndareNamed] false).calls.map
      (fun c => c.opts.contains "-dim")) = [false] :=
  ⟨by decide, by decide, by decide⟩

/-- Amended C9: every export of both variants requests WKT geometry
output (every fragment selects the repaired simplified geometry
aliased WKT, and the option list carries the AS_WKT layer-creation
option); the depth variant additionally appends a fixed force-2D
dimensionality request to every export, unconditionally and
regardless of which layers are present, while the generic variant
never requests a dimensionality. -/
theorem wkt_always_dim_depth_only
    (dD nD dN nN : String) (tls : List String) (ff : String) (lvl : Char)
    (fsD fsN : Option (List String)) (esD esN : List Entry) (sfD sfN : Bool)
    (ds : CellFile) (c c' : ExportCall)
    (hc : c ∈ (runDepth dD nD fsD esD sfD).calls)
    (hc' : c' ∈ (runNobjnm dN nN tls ff fsN esN sfN).calls) :
    c.opts = ["-f", "CSV", "-dialect", "SQLite"] ++
        (if c.append then ["-append"] else []) ++
        ["-sql", c.sql, "-nln", nD, "-lco", "GEOMETRY=AS_WKT", "-dim", "2"] ∧
    c'.opts = ["-f", "CSV", "-dialect", "SQLite"] ++
        (if c'.append then ["-append"] else []) ++
        ["-sql", c'.sql, "-nln", nN, "-lco", "GEOMETRY=AS_WKT"] ∧
    (∀ s ∈ depth_sql_parts ds, geomSelect.data <+: s.data) ∧
    (∀ s ∈ nobjnm_sql_parts ds tls ff lvl, geomSelect.data <+: s.data) := by
  rw [runDepth_calls] at hc
  rw [runNobjnm_calls] at hc'
  obtain ⟨stD, eD, hmkD⟩ := runLoop_mem _ _ _ _ hc
  obtain ⟨stN, eN, hmkN⟩ := runLoop_mem _ _ _ _ hc'
  obtain ⟨_, _, happD, _, hoptsD, _⟩ := mkDepth_spec dD nD stD eD c hmkD
  obtain ⟨_, _, happN, _, hoptsN, _⟩ := mkNobjnm_spec dN nN tls ff stN eN c' hmkN
  refine ⟨?_, ?_, ?_, ?_⟩
  · rw [hoptsD, happD, depthOpts]
    cases stD <;> simp
  · rw [hoptsN, happN, nobjnmOpts]
    cases stN <;> simp
  · intro s hs
    obtain ⟨a, _, hsql⟩ := List.mem_filterMap.mp hs
    rcases depthSqlOf_shape ds a s hsql with h1 | ⟨f, h2⟩
    · rw [h1]; exact geomSelect_prefix_lndareSql a
    · rw [h2]; exact geomSelect_prefix_depthFieldSql a f
  · intro s hs
    obtain ⟨a, _, hsql⟩ := List.mem_filterMap.mp hs
    rw [nobjnmSqlOf_shape ds ff lvl a s hsql]
    exact geomSelect_prefix_nobjnmFieldSql lvl a ff

/-- The only export call of the depth run over entryDepare, used in
the C9 and C10 witnesses. -/
def c9DepthCall : ExportCall :=
  ⟨"o", "d", false, depthFieldSql "DEPARE" "DRVAL1",
   depthOpts true (depthFieldSql "DEPARE" "DRVAL1") "d", true⟩

/-- The only export call of the nobjnm run over entryLndareNamed,
used in the C9 and C10 witnesses. -/
def c9NobjnmCall : ExportCall :=
  ⟨"o2", "n", false, nobjnmFieldSql '0' "LNDARE" "NOBJNM",
   nobjnmOpts true (nobjnmFieldSql '0' "LNDARE" "NOBJNM") "n", true⟩

/-- Witness for the amended C9 at concrete one-file runs of both
variants. -/
theorem wkt_always_dim_depth_only_witness :
    c9DepthCall ∈ (runDepth "o" "d" none [entryDepare] false).calls ∧
    c9NobjnmCall ∈ (runNobjnm "o2" "n" defaultLayers "NOBJNM" none [entryLndareNamed]
      false).calls ∧
    (c9DepthCall.opts = ["-f", "CSV", "-dialect", "SQLite"] ++
        (if c9DepthCall.append then ["-append"] else []) ++
        ["-sql", c9DepthCall.sql, "-nln", "d", "-lco", "GEOMETRY=AS_WKT", "-dim", "2"] ∧
      c9NobjnmCall.opts = ["-f", "CSV", "-dialect", "SQLite"] ++
        (if c9NobjnmCall.append then ["-append"] else []) ++
        ["-sql", c9NobjnmCall.sql, "-nln", "n", "-lco", "GEOMETRY=AS_WKT"] ∧
      (∀ s ∈ depth_sql_parts cellDepare, geomSelect.data <+: s.data) ∧
      (∀ s ∈ nobjnm_sql_parts cellDepare defaultLayers "NOBJNM" '0',
        geomSelect.data <+: s.data)) :=
  ⟨by decide, by decide,
   wkt_always_dim_depth_only "o" "d" "o2" "n" defaultLayers "NOBJNM" '0' none none
     [entryDepare] [entryLndareNamed] false false cellDepare c9DepthCall c9NobjnmCall
     (by decide) (by decide)⟩

/-! ## Claim C10 -/

/-- Claim C10: the fragment order of the synthesized query is fixed:
in the depth variant the LNDARE fragment (when present) comes first,
followed by the present depth layers in ascending lexicographic order
DEPARE, DEPCNT, DRGARE, OBSTRN, SOUNDG, UWTROC, WRECKS (the iteration
order of the key-sorted map); in the generic variant fragments follow
the supplied layer-list order; and every exported query is the
fragments joined with the UNION ALL separator. -/
theorem fragment_order_fixed (ds : CellFile) (tls : List String) (ff : String) (lvl : Char)
    (dD nD dN nN : String) (fsD fsN : Option (List String)) (esD esN : List Entry)
    (sfD sfN : Bool) (c c' : ExportCall)
    (hc : c ∈ (runDepth dD nD fsD esD sfD).calls)
    (hc' : c' ∈ (runNobjnm dN nN tls ff fsN esN sfN).calls) :
    all_target_layers =
      ["LNDARE", "DEPARE", "DEPCNT", "DRGARE", "OBSTRN", "SOUNDG", "UWTROC", "WRECKS"] ∧
    depth_sql_parts ds =
      ["LNDARE", "DEPARE", "DEPCNT", "DRGARE", "OBSTRN", "SOUNDG", "UWTROC",
        "WRECKS"].filterMap (depthSqlOf ds) ∧
    nobjnm_sql_parts ds tls ff lvl = tls.filterMap (nobjnmSqlOf ds ff lvl) ∧
    (∃ dsc, c.sql = String.intercalate " UNION ALL " (depth_sql_parts dsc)) ∧
    (∃ dsc fn, c'.sql = String.intercalate " UNION ALL "
      (nobjnm_sql_parts dsc tls ff (levelOfFilename fn))) := by
  rw [runDepth_calls] at hc
  rw [runNobjnm_calls] at hc'
  obtain ⟨stD, eD, hmkD⟩ := runLoop_mem _ _ _ _ hc
  obtain ⟨stN, eN, hmkN⟩ := runLoop_mem _ _ _ _ hc'
  obtain ⟨_, _, _, _, _, dsc, _, _, hsql⟩ := mkDepth_spec dD nD stD eD c hmkD
  obtain ⟨_, _, _, _, _, dsc', _, _, hsql'⟩ := mkNobjnm_spec dN nN tls ff stN eN c' hmkN
  refine ⟨all_target_layers_eq, ?_, rfl, ⟨dsc, hsql⟩, ⟨dsc', eN.filename, hsql'⟩⟩
  rw [depth_sql_parts, all_target_layers_eq]

/-- Witness for C10 at concrete one-file runs of both variants. -/
theorem fragment_order_fixed_witness :
    c9DepthCall ∈ (runDepth "o" "d" none [entryDepare] false).calls ∧
    c9NobjnmCall ∈ (runNobjnm "o2" "n" defaultLayers "NOBJNM" none [entryLndareNamed]
      false).calls ∧
    (all_target_layers =
      ["LNDARE", "DEPARE", "DEPCNT", "DRGARE", "OBSTRN", "SOUNDG", "UWTROC", "WRECKS"] ∧
     depth_sql_parts cellDepare =
      ["LNDARE", "DEPARE", "DEPCNT", "DRGARE", "OBSTRN", "SOUNDG", "UWTROC",
        "WRECKS"].filterMap (depthSqlOf cellDepare) ∧
     nobjnm_sql_parts cellDepare defaultLayers "NOBJNM" '0' =
       defaultLayers.filterMap (nobjnmSqlOf cellDepare "NOBJNM" '0') ∧
     (∃ dsc, c9DepthCall.sql = String.intercalate " UNION ALL " (depth_sql_parts dsc)) ∧
     (∃ dsc fn, c9NobjnmCall.sql = String.intercalate " UNION ALL "
       (nobjnm_sql_parts dsc defaultLayers "NOBJNM" (levelOfFilename fn)))) :=
  ⟨by decide, by decide,
   fragment_order_fixed cellDepare defaultLayers "NOBJNM" '0' "o" "d" "o2" "n" none none
     [entryDepare] [entryLndareNamed] false false c9DepthCall c9NobjnmCall
     (by decide) (by decide)⟩

end GdalExport
